import Mathlib

/-
Verification development for the DarkRiskRadar scoring pipeline
(src/core.py).  The pure scoring logic of the `DarkRiskRadar` class is
embedded shallowly: machine floats become exact rationals, and every
external capability (HTTP search, fundamentals fetch, RSS feed, the
sentiment classifier) becomes an explicit `Except`-valued input, so that
the `try/except` boundaries of the Python code appear as pattern matches
on `Except`.
-/

namespace DarkRiskRadar

/-- Payload carried by a raised external exception. -/
abbrev Err := String

/-- Lower-case a string character-wise; embeds Python's `str.lower()`
for the ASCII titles and keywords the program works with. -/
def strLower (s : String) : String := String.mk (s.data.map Char.toLower)

/-- Substring test on character lists: `n` occurs contiguously in the
second argument.  Helper for `containsSub`. -/
def listContains (n : List Char) : List Char → Bool
  | [] => n.isEmpty
  | c :: t => n.isPrefixOf (c :: t) || listContains n t

/-- Embeds Python's `needle in hay` substring operator on strings. -/
def containsSub (needle hay : String) : Bool :=
  listContains needle.data hay.data

/-- The four risk signals of the pipeline. -/
inductive Sig
  | fin
  | legal
  | exec
  | news
deriving DecidableEq

/-- Fixed weight table `self.weights` (core.py lines 15-20). -/
def weights : Sig → ℚ
  | .fin => 40 / 100
  | .legal => 25 / 100
  | .exec => 20 / 100
  | .news => 15 / 100

/-- Sentiment label produced by the external classifier. -/
inductive Label
  | positive
  | negative
  | neutral
deriving DecidableEq

/-- One classifier result: a label and a confidence (`r['score']`). -/
structure Classification where
  label : Label
  score : ℚ
deriving DecidableEq

/-- An officer record: `o.get('title', '')` may be absent. -/
structure Officer where
  title : Option String
deriving DecidableEq

/-- The parts of `stock.info` the program reads: `sector`, `industry`
and `companyOfficers`, each possibly absent (Python `.get` defaults). -/
structure Info where
  sector : Option String
  industry : Option String
  companyOfficers : Option (List Officer)

/-- The external data attached to a resolved ticker object: each access
(`stock.info`, `stock.balance_sheet`, `stock.news`) may raise.  The
balance sheet is the most recent reporting column, keyed by row label. -/
structure StockData where
  info : Except Err Info
  balance_sheet : Except Err (List (String × ℚ))
  news : Except Err (List String)

/-- Embeds `_get_ticker` (core.py lines 25-33): the external search
either raises (caught, `None`) or returns the quote symbols; the
`data['quotes'][0]` access raises on an empty list (caught, `None`). -/
def get_ticker (search : Except Err (List String)) : Option String :=
  match search with
  | .error _ => none
  | .ok quotes => quotes.head?

/-- High-risk keyword list of `_get_sector_modifier`. -/
def high_risk : List String :=
  ["Real Estate", "Banks - Regional", "Biotechnology", "Cryptocurrency"]

/-- Low-risk keyword list of `_get_sector_modifier`. -/
def low_risk : List String :=
  ["Utilities", "Consumer Defensive", "Healthcare Plans"]

/-- Embeds `_get_sector_modifier` (core.py lines 35-50).  `none` stands
for a falsy `stock`; an `Except.error` for a raised `stock.info`. -/
def get_sector_modifier (stock : Option (Except Err Info)) : ℚ × String :=
  match stock with
  | none => (1, "Unknown / Private")
  | some (.error _) => (1, "Unknown")
  | some (.ok i) =>
    let sector := i.sector.getD "Unknown"
    let industry := i.industry.getD "Unknown"
    let modifier : ℚ :=
      if high_risk.any (fun hr => containsSub hr industry || containsSub hr sector) then
        23 / 20
      else if low_risk.any (fun lr => containsSub lr industry || containsSub lr sector) then
        9 / 10
      else 1
    (modifier, sector ++ " - " ++ industry)

/-- Python set insertion, modelled as an order-preserving list without
duplicates: `headlines.add(title)`. -/
def set_add (s : List String) (x : String) : List String :=
  if x ∈ s then s else s ++ [x]

/-- One source loop of `_get_headlines`: add each title that contains
the company name case-insensitively to the accumulated set. -/
def add_relevant (name : String) (s : List String) (titles : List String) : List String :=
  titles.foldl
    (fun acc t => if containsSub (strLower name) (strLower t) then set_add acc t else acc) s

/-- Embeds `_get_headlines` (core.py lines 52-79): the feed source is
truncated to 30 items and contributes nothing if the fetch raised; the
equity-news source is consulted only when a ticker object exists and
likewise contributes nothing on a raise. -/
def get_headlines (name : String) (feed : Except Err (List String))
    (stock_news : Option (Except Err (List String))) : List String :=
  let s1 : List String :=
    match feed with
    | .error _ => []
    | .ok items => add_relevant name [] (items.take 30)
  match stock_news with
  | none => s1
  | some (.error _) => s1
  | some (.ok items) => add_relevant name s1 items

/-- Preference order of the two liability labels (core.py line 88). -/
def liab_labels : List String :=
  ["Total Liabilities Net Minority Interest", "Total Liabilities"]

/-- Embeds `next((k for k in [...] if k in bs.index), None)` followed by
`bs.loc[liab_key, recent]`: the value under the first present label. -/
def liab_lookup (rows : List (String × ℚ)) : Option ℚ :=
  (liab_labels.find? (fun k => (rows.lookup k).isSome)).bind (fun k => rows.lookup k)

/-- Embeds `_calculate_fin_score` (core.py lines 81-100).  A raised
`stock.balance_sheet` is the `Except.error` case; missing row labels
raise `KeyError` and zero denominators raise `ZeroDivisionError`, all
caught by the blanket handler and collapsed to `none`. -/
def calculate_fin_score (bs : Except Err (List (String × ℚ))) : Option ℚ :=
  match bs with
  | .error _ => none
  | .ok rows =>
    if rows = [] then none
    else
      match rows.lookup "Total Assets", liab_lookup rows with
      | some assets, some liabs =>
        if assets = 0 then none
        else
          let solvency_risk := min 100 (liabs / assets * 100)
          match rows.lookup "Current Assets", rows.lookup "Current Liabilities" with
          | some curr_assets, some curr_liabs =>
            if curr_liabs = 0 then none
            else
              let c_ratio := curr_assets / curr_liabs
              let liquidity_risk := max 0 (min 100 ((3 / 2 - c_ratio) * 100))
              some (solvency_risk * (1 / 2) + liquidity_risk * (1 / 2))
          | _, _ => none
      | _, _ => none

/-- Role weight table of `_calculate_exec_score` (core.py lines 108-115),
kept in its insertion order. -/
def role_weights : List (String × ℚ) :=
  [("ceo", 35), ("cfo", 30), ("coo", 15), ("president", 10), ("counsel", 5), ("cto", 5)]

/-- The lower-cased, space-joined blob of officer titles
(`" ".join([o.get('title', '').lower() for o in officers])`). -/
def officer_titles (officers : List Officer) : String :=
  String.intercalate " " (officers.map (fun o => strLower (o.title.getD "")))

/-- Embeds `_calculate_exec_score` (core.py lines 102-125): a raised
`stock.info` falls to the blanket handler (50.0); a missing or empty
officer list returns 85.0; otherwise each role whose name is not a
substring of the title blob adds its weight, capped at 100. -/
def calculate_exec_score (info : Except Err Info) : ℚ :=
  match info with
  | .error _ => 50
  | .ok i =>
    let officers := i.companyOfficers.getD []
    if officers = [] then 85
    else
      let titles := officer_titles officers
      let risk_score :=
        role_weights.foldl
          (fun acc rw => if containsSub rw.1 titles then acc else acc + rw.2) 0
      min 100 risk_score

/-- News-risk contribution of one classified headline
(core.py lines 149-155). -/
def news_contribution (r : Classification) : ℚ :=
  match r.label with
  | .negative => r.score * 100
  | .positive => -(r.score * 50)
  | .neutral => 20

/-- Ordered severity map of `_calculate_text_scores`
(core.py lines 136-146), in dict insertion order. -/
def severity_map : List (String × ℚ) :=
  [("bankruptcy", 80), ("fraud", 70), ("indictment", 70),
   ("sec", 40), ("investigation", 40), ("probe", 40),
   ("lawsuit", 20), ("sued", 20), ("litigation", 20)]

/-- The `context_multiplier` of core.py line 160. -/
def context_multiplier (r : Classification) : ℚ :=
  if r.label = .negative then r.score else 1 / 5

/-- The first severity keyword contained in the lower-cased headline;
embeds the `for ... break` scan over the ordered dict. -/
def first_keyword (h : String) : Option (String × ℚ) :=
  severity_map.find? (fun kw => containsSub kw.1 (strLower h))

/-- Legal-points contribution of one classified headline: the first
matching keyword's weight times the context multiplier, or 0. -/
def legal_contribution (h : String) (r : Classification) : ℚ :=
  match first_keyword h with
  | none => 0
  | some kw => kw.2 * context_multiplier r

/-- Embeds the pure part of `_calculate_text_scores` (core.py lines
127-167), given the classifier's batch results: empty input short
circuits to `(0, 0)`; otherwise the first 20 headlines are zipped with
the results, accumulated, and the news average is clamped to [0, 100]
while the legal total is capped at 100. -/
def calculate_text_scores (headlines : List String)
    (results : List Classification) : ℚ × ℚ :=
  if headlines = [] then (0, 0)
  else
    let hs := headlines.take 20
    let pairs := hs.zip results
    let news_risk_accum := (pairs.map (fun p => news_contribution p.2)).sum
    let legal_points := (pairs.map (fun p => legal_contribution p.1 p.2)).sum
    (max 0 (min 100 (news_risk_accum / (hs.length : ℚ))), min 100 legal_points)

/-- Embeds `_calculate_text_scores` with its external classifier call
made explicit: `self.analyzer(headlines)` is NOT wrapped in any
`try/except` in the source, so an error result of the classifier is
returned to the caller unchanged.  The empty-input branch returns
before the classifier is ever invoked. -/
def calculate_text_scoresE (headlines : List String)
    (classify : List String → Except Err (List Classification)) : Except Err (ℚ × ℚ) :=
  if headlines = [] then .ok (0, 0)
  else (classify (headlines.take 20)).map (fun results => calculate_text_scores headlines results)

/-- The `raw_scores` dict of core.py line 181, in insertion order; the
text calculator always supplies `legal` and `news`. -/
def raw_scores (fin_s : Option ℚ) (legal_s : ℚ) (exec_s : Option ℚ)
    (news_s : ℚ) : List (Sig × Option ℚ) :=
  [(.fin, fin_s), (.legal, some legal_s), (.exec, exec_s), (.news, some news_s)]

/-- The `active_metrics` dict comprehension of core.py line 182: keep
the signals that produced a value. -/
def active_metrics (fin_s : Option ℚ) (legal_s : ℚ) (exec_s : Option ℚ)
    (news_s : ℚ) : List (Sig × ℚ) :=
  (raw_scores fin_s legal_s exec_s news_s).filterMap
    (fun p => p.2.map (fun v => (p.1, v)))

/-- `total_weight_available` of core.py line 188. -/
def total_weight_available (active : List (Sig × ℚ)) : ℚ :=
  (active.map (fun p => weights p.1)).sum

/-- `base_score` of core.py lines 189-192: renormalized weighted sum. -/
def base_score (active : List (Sig × ℚ)) : ℚ :=
  (active.map (fun p => p.2 * (weights p.1 / total_weight_available active))).sum

/-- `final_score` of core.py line 194. -/
def final_score (active : List (Sig × ℚ)) (sector_mod : ℚ) : ℚ :=
  min 100 (base_score active * sector_mod)

/-- The three status bands printed by `run`. -/
inductive Status
  | critical
  | caution
  | stable
deriving DecidableEq

/-- The banding expression of core.py line 205. -/
def risk_status (f : ℚ) : Status :=
  if f ≥ 70 then .critical else if f ≥ 40 then .caution else .stable

/-- Observable outcome of one analysis: either the critical-error
message of core.py line 185 or a report with modifier, score, status. -/
inductive RunOutcome
  | criticalError
  | report (sector_mod : ℚ) (finalScore : ℚ) (status : Status)
deriving DecidableEq

/-- Embeds `run` (core.py lines 169-206) from the point where the
ticker object is (or is not) available: collect headlines, score text
(an unhandled classifier exception escapes `run` itself, hence the
`Except` result), compute the optional fin/exec signals, aggregate over
the active metrics, and band the final score. -/
def run (name : String) (stock : Option StockData)
    (feed : Except Err (List String))
    (classify : List String → Except Err (List Classification)) : Except Err RunOutcome :=
  let headlines := get_headlines name feed (stock.map (fun s => s.news))
  match calculate_text_scoresE headlines classify with
  | .error e => .error e
  | .ok (news_s, legal_s) =>
    let fin_s := match stock with
      | none => none
      | some s => calculate_fin_score s.balance_sheet
    let exec_s := match stock with
      | none => none
      | some s => some (calculate_exec_score s.info)
    let sm := get_sector_modifier (stock.map (fun s => s.info))
    let active := active_metrics fin_s legal_s exec_s news_s
    if active = [] then .ok .criticalError
    else
      let fs := final_score active sm.1
      .ok (.report sm.1 fs (risk_status fs))

/-- Balance-sheet column of the spec's worked financial example:
assets 100, liabilities 150, current assets 50, current liabilities
100. -/
def fin_example_rows : List (String × ℚ) :=
  [("Total Assets", 100), ("Total Liabilities", 150),
   ("Current Assets", 50), ("Current Liabilities", 100)]

/-- Balance-sheet column with a negative liabilities figure, used to
exhibit a financial score below 0. -/
def neg_liab_rows : List (String × ℚ) :=
  [("Total Assets", 100), ("Total Liabilities", -50),
   ("Current Assets", 200), ("Current Liabilities", 100)]

/-- Concrete `stock.info` sample with one officer titled
"CEO and President". -/
def exec_example_info : Info :=
  ⟨none, none, some [⟨some "CEO and President"⟩]⟩

/-! ### Helper lemmas -/

lemma weights_pos (s : Sig) : 0 < weights s := by
  cases s <;> norm_num [weights]

lemma total_weight_pos (active : List (Sig × ℚ)) (h : active ≠ []) :
    0 < total_weight_available active := by
  match active, h with
  | p :: rest, _ =>
    have hrest : 0 ≤ (rest.map (fun q => weights q.1)).sum := by
      apply List.sum_nonneg
      intro x hx
      obtain ⟨q, _, rfl⟩ := List.mem_map.mp hx
      exact (weights_pos q.1).le
    have hp := weights_pos p.1
    simp only [total_weight_available, List.map_cons, List.sum_cons]
    linarith

lemma text_scores_nonempty (headlines : List String) (results : List Classification)
    (h : headlines ≠ []) :
    calculate_text_scores headlines results
      = (max 0 (min 100 ((((headlines.take 20).zip results).map
            (fun p => news_contribution p.2)).sum / ((headlines.take 20).length : ℚ))),
         min 100 ((((headlines.take 20).zip results).map
            (fun p => legal_contribution p.1 p.2)).sum)) := by
  simp only [calculate_text_scores, if_neg h]

lemma find?_eq_filter_head {α : Type} (p : α → Bool) (l : List α) :
    l.find? p = (l.filter p).head? := by
  induction l with
  | nil => rfl
  | cons a t ih =>
    cases h : p a
    · rw [List.find?_cons_of_neg _ (by simp [h]), List.filter_cons_of_neg (by simp [h]), ih]
    · rw [List.find?_cons_of_pos _ h, List.filter_cons_of_pos h]
      rfl

lemma severity_weights_nonneg : ∀ kw ∈ severity_map, (0 : ℚ) ≤ kw.2 := by
  decide

lemma context_multiplier_nonneg (r : Classification) (hr : 0 ≤ r.score) :
    0 ≤ context_multiplier r := by
  unfold context_multiplier
  split
  · exact hr
  · norm_num

lemma legal_contribution_nonneg (h : String) (r : Classification) (hr : 0 ≤ r.score) :
    0 ≤ legal_contribution h r := by
  unfold legal_contribution
  cases hfk : first_keyword h with
  | none => exact le_refl 0
  | some kw =>
    have hkw : kw ∈ severity_map := List.mem_of_find?_eq_some hfk
    exact mul_nonneg (severity_weights_nonneg kw hkw) (context_multiplier_nonneg r hr)

lemma fin_score_eq (rows : List (String × ℚ)) (assets liabs curr_assets curr_liabs : ℚ)
    (hne : rows ≠ []) (ha : rows.lookup "Total Assets" = some assets)
    (hl : liab_lookup rows = some liabs)
    (hca : rows.lookup "Current Assets" = some curr_assets)
    (hcl : rows.lookup "Current Liabilities" = some curr_liabs)
    (ha0 : assets ≠ 0) (hcl0 : curr_liabs ≠ 0) :
    calculate_fin_score (.ok rows)
      = some (min 100 (liabs / assets * 100) * (1 / 2)
          + max 0 (min 100 ((3 / 2 - curr_assets / curr_liabs) * 100)) * (1 / 2)) := by
  simp only [calculate_fin_score, if_neg hne, ha, hl, hca, hcl, if_neg ha0, if_neg hcl0]

lemma exec_foldl_eq (titles : String) (l : List (String × ℚ)) :
    ∀ acc : ℚ,
      l.foldl (fun a rw => if containsSub rw.1 titles then a else a + rw.2) acc
        = acc + ((l.filter (fun rw => !containsSub rw.1 titles)).map Prod.snd).sum := by
  induction l with
  | nil => intro acc; simp
  | cons p t ih =>
    intro acc
    cases h : containsSub p.1 titles
    · simp [List.foldl_cons, List.filter_cons, h, ih]
      ring
    · simp [List.foldl_cons, List.filter_cons, h, ih]

/-! ### Claim theorems -/

/-- C1: for every non-empty list of active signals and every sector
modifier `m`, the final score is `min 100` of the renormalized weighted
sum times `m`; the renormalized weights over the active signals sum to
1; and with a single active signal `x` the final score is
`min 100 (x * m)`. -/
theorem aggregator_renormalized (active : List (Sig × ℚ)) (m : ℚ) (h : active ≠ []) :
    final_score active m
      = min 100 ((active.map
          (fun p => p.2 * weights p.1 / total_weight_available active)).sum * m)
    ∧ (active.map (fun p => weights p.1 / total_weight_available active)).sum = 1
    ∧ ∀ s x, final_score [(s, x)] m = min 100 (x * m) := by
  have hT := total_weight_pos active h
  refine ⟨?_, ?_, ?_⟩
  · simp only [final_score, base_score, mul_div_assoc]
  · have hsum : (active.map (fun p => weights p.1 / total_weight_available active)).sum
        = (active.map (fun p => weights p.1)).sum / total_weight_available active := by
      simp only [div_eq_mul_inv, List.sum_map_mul_right]
    rw [hsum]
    exact div_self hT.ne'
  · intro s x
    simp [final_score, base_score, total_weight_available, div_self (weights_pos s).ne']

/-- Witness for C1 at a single active `news` signal of 50 and
modifier 1. -/
theorem aggregator_renormalized_witness :
    final_score [(Sig.news, 50)] 1
      = min 100 ((([(Sig.news, (50 : ℚ))]).map
          (fun p => p.2 * weights p.1 / total_weight_available [(Sig.news, 50)])).sum * 1)
    ∧ (([(Sig.news, (50 : ℚ))]).map
        (fun p => weights p.1 / total_weight_available [(Sig.news, 50)])).sum = 1
    ∧ ∀ s x, final_score [(s, x)] 1 = min 100 (x * 1) :=
  aggregator_renormalized [(Sig.news, 50)] 1 (by simp)

/-- C4: the status band is `critical` exactly when the final score is
at least 70, `caution` exactly when it is in `[40, 70)`, and `stable`
exactly when it is below 40; the boundary values 70 and 40 resolve to
the higher-severity band, and 69.999 and 39.999 fall below them. -/
theorem status_banding :
    (∀ f : ℚ,
      (risk_status f = .critical ↔ 70 ≤ f)
      ∧ (risk_status f = .caution ↔ 40 ≤ f ∧ f < 70)
      ∧ (risk_status f = .stable ↔ f < 40))
    ∧ risk_status 70 = .critical
    ∧ risk_status 40 = .caution
    ∧ risk_status (69999 / 1000) = .caution
    ∧ risk_status (39999 / 1000) = .stable := by
  refine ⟨fun f => ?_, by norm_num [risk_status], by norm_num [risk_status],
    by norm_num [risk_status], by norm_num [risk_status]⟩
  unfold risk_status
  split_ifs with h1 h2
  · exact ⟨iff_of_true rfl h1,
      iff_of_false (by decide) (fun hc => absurd h1 (not_le.mpr hc.2)),
      iff_of_false (by decide)
        (fun hc => absurd h1 (not_le.mpr (lt_trans hc (by norm_num))))⟩
  · exact ⟨iff_of_false (by decide) h1,
      iff_of_true rfl ⟨h2, not_le.mp h1⟩,
      iff_of_false (by decide) (fun hc => absurd h2 (not_le.mpr hc))⟩
  · exact ⟨iff_of_false (by decide) h1,
      iff_of_false (by decide) (fun hc => h2 hc.1),
      iff_of_true rfl (not_le.mp h2)⟩

/-- C2 counterexample: the text score calculator's batch classification
call is not guarded by any handler, so with a non-empty headline list a
classifier exception is returned to the caller instead of a degraded
value. -/
theorem classifier_error_propagates :
    calculate_text_scoresE ["Acme hit by fraud probe"]
        (fun _ => .error "classifier unavailable")
      = .error "classifier unavailable" := rfl

/-- C2 (amended): the ticker resolver, sector classifier, headline
collector, financial calculator and executive calculator all convert a
raised external call into their degraded result and never re-raise; the
text score calculator does so only for an empty headline list (where the
classifier is never invoked), and propagates a classifier exception
unchanged whenever the headline list is non-empty. -/
theorem failure_containment :
    (∀ e, get_ticker (.error e) = none)
    ∧ (∀ e, get_sector_modifier (some (.error e)) = (1, "Unknown"))
    ∧ (∀ name e e2, get_headlines name (.error e) (some (.error e2)) = [])
    ∧ (∀ e, calculate_fin_score (.error e) = none)
    ∧ (∀ e, calculate_exec_score (.error e) = 50)
    ∧ (∀ classify, calculate_text_scoresE [] classify = .ok (0, 0))
    ∧ (∀ h t e, calculate_text_scoresE (h :: t) (fun _ => .error e) = .error e) :=
  ⟨fun _ => rfl, fun _ => rfl, fun _ _ _ => rfl, fun _ => rfl, fun _ => rfl,
    fun _ => rfl, fun _ _ _ => rfl⟩

lemma active_metrics_mem (fin_s : Option ℚ) (legal_s : ℚ) (exec_s : Option ℚ) (news_s : ℚ) :
    active_metrics fin_s legal_s exec_s news_s ≠ []
    ∧ Sig.legal ∈ (active_metrics fin_s legal_s exec_s news_s).map Prod.fst
    ∧ Sig.news ∈ (active_metrics fin_s legal_s exec_s news_s).map Prod.fst := by
  cases fin_s <;> cases exec_s <;> simp [active_metrics, raw_scores]

/-- C10: whenever `run` reaches the aggregation step (i.e. returns an
outcome at all), the active metrics contain both `legal` and `news`, so
the critical-error branch for an empty active set is unreachable. -/
theorem aggregation_never_critical_error :
    (∀ name stock feed classify out,
        run name stock feed classify = .ok out → out ≠ RunOutcome.criticalError)
    ∧ ∀ fin_s legal_s exec_s news_s,
        Sig.legal ∈ (active_metrics fin_s legal_s exec_s news_s).map Prod.fst
        ∧ Sig.news ∈ (active_metrics fin_s legal_s exec_s news_s).map Prod.fst
        ∧ active_metrics fin_s legal_s exec_s news_s ≠ [] := by
  constructor
  · intro name stock feed classify out hrun
    cases stock <;>
    · unfold run at hrun
      dsimp only [Option.map] at hrun
      split at hrun
      · exact Except.noConfusion hrun
      · split at hrun
        · exact absurd (by assumption) (active_metrics_mem _ _ _ _).1
        · cases hrun
          simp
  · intro fin_s legal_s exec_s news_s
    obtain ⟨h1, h2, h3⟩ := active_metrics_mem fin_s legal_s exec_s news_s
    exact ⟨h2, h3, h1⟩

/-- Witness for C10: a run with no stock data and an empty feed reports
a final score of 0 with stable status, not the critical error. -/
theorem aggregation_never_critical_error_witness :
    RunOutcome.report 1 0 Status.stable ≠ RunOutcome.criticalError :=
  aggregation_never_critical_error.1 "A" none (.ok []) (fun _ => .ok [])
    (.report 1 0 .stable)
    (by
      have hfs : final_score [(Sig.legal, 0), (Sig.news, 0)] 1 = 0 := by
        norm_num [final_score, base_score, total_weight_available, weights]
      have hst : risk_status (0 : ℚ) = .stable := by norm_num [risk_status]
      calc run "A" none (.ok []) (fun _ => .ok [])
          = .ok (.report 1 (final_score [(Sig.legal, 0), (Sig.news, 0)] 1)
              (risk_status (final_score [(Sig.legal, 0), (Sig.news, 0)] 1))) := rfl
        _ = .ok (.report 1 0 .stable) := by rw [hfs, hst])

/-- C6: the legal contribution of a headline is decided by the first
matching keyword of the ordered severity map (head of the filtered
list), so a headline containing both fraud and lawsuit contributes only
the fraud weight; the contribution is the base weight times the
confidence for a negative label and times 0.2 otherwise; and the final
legal score is `min 100` of the accumulated contributions with no
division. -/
theorem legal_keyword_first_match :
    (∀ h r, legal_contribution h r
        = ((severity_map.filter (fun kw => containsSub kw.1 (strLower h))).head?.elim 0
            (fun kw => kw.2 * context_multiplier r)))
    ∧ (∀ r, legal_contribution "Acme faces fraud lawsuit" r = 70 * context_multiplier r)
    ∧ (∀ r, r.label = .negative → context_multiplier r = r.score)
    ∧ (∀ r, r.label ≠ .negative → context_multiplier r = 1 / 5)
    ∧ (∀ headlines results, headlines ≠ [] →
        (calculate_text_scores headlines results).2
          = min 100 ((((headlines.take 20).zip results).map
              (fun p => legal_contribution p.1 p.2)).sum)) := by
  refine ⟨?_, ?_, ?_, ?_, ?_⟩
  · intro h r
    unfold legal_contribution first_keyword
    rw [find?_eq_filter_head]
    cases (severity_map.filter (fun kw => containsSub kw.1 (strLower h))).head? <;> rfl
  · intro r
    have hfk : first_keyword "Acme faces fraud lawsuit" = some ("fraud", 70) := by decide
    simp [legal_contribution, hfk]
  · intro r h
    simp [context_multiplier, h]
  · intro r h
    simp [context_multiplier, h]
  · intro headlines results h
    rw [text_scores_nonempty headlines results h]

/-- Witness for C6: a negative classification with confidence 0.9 on a
headline containing both fraud and lawsuit contributes the fraud weight
only, with the confidence multiplier; the non-empty legal formula is
exercised on the same headline. -/
theorem legal_keyword_first_match_witness :
    legal_contribution "Acme faces fraud lawsuit" ⟨Label.negative, 9 / 10⟩
        = 70 * context_multiplier ⟨Label.negative, 9 / 10⟩
    ∧ context_multiplier ⟨Label.negative, 9 / 10⟩ = (9 : ℚ) / 10
    ∧ (calculate_text_scores ["Acme faces fraud lawsuit"] [⟨Label.negative, 9 / 10⟩]).2
        = min 100 ((((["Acme faces fraud lawsuit"].take 20).zip
            [(⟨Label.negative, 9 / 10⟩ : Classification)]).map
              (fun p => legal_contribution p.1 p.2)).sum) :=
  ⟨legal_keyword_first_match.2.1 ⟨Label.negative, 9 / 10⟩,
   legal_keyword_first_match.2.2.1 ⟨Label.negative, 9 / 10⟩ rfl,
   legal_keyword_first_match.2.2.2.2 ["Acme faces fraud lawsuit"]
     [⟨Label.negative, 9 / 10⟩] (by simp)⟩

/-- C7: the text calculator returns exactly `(0, 0)` on an empty
headline list; otherwise it scores at most the first 20 headlines,
contributing `+confidence*100` for negative, `-confidence*50` for
positive and a fixed `+20` for neutral, and the news score is the
accumulator divided by the number of headlines scored, clamped to
`[0, 100]`; one negative headline with confidence 0.9 yields 90. -/
theorem text_scores_spec :
    (∀ results, calculate_text_scores [] results = (0, 0))
    ∧ (∀ headlines results, headlines ≠ [] →
        (calculate_text_scores headlines results).1
          = max 0 (min 100 ((((headlines.take 20).zip results).map
              (fun p => news_contribution p.2)).sum / ((headlines.take 20).length : ℚ))))
    ∧ (∀ r, r.label = .negative → news_contribution r = r.score * 100)
    ∧ (∀ r, r.label = .positive → news_contribution r = -(r.score * 50))
    ∧ (∀ r, r.label = .neutral → news_contribution r = 20)
    ∧ calculate_text_scores ["Acme shares tumble"] [⟨Label.negative, 9 / 10⟩] = (90, 0) := by
  refine ⟨fun results => rfl, ?_, ?_, ?_, ?_, ?_⟩
  · intro headlines results h
    rw [text_scores_nonempty headlines results h]
  · intro r h
    simp [news_contribution, h]
  · intro r h
    simp [news_contribution, h]
  · intro r h
    simp [news_contribution, h]
  · have hfk : first_keyword "Acme shares tumble" = none := by decide
    rw [text_scores_nonempty _ _ (by simp)]
    simp [news_contribution, legal_contribution, hfk]
    norm_num [min_def, max_def]

/-- Witness for C7: the non-empty news formula instantiated at one
negative headline with confidence 0.9. -/
theorem text_scores_spec_witness :
    (calculate_text_scores ["Acme shares tumble"] [⟨Label.negative, 9 / 10⟩]).1
      = max 0 (min 100 ((((["Acme shares tumble"].take 20).zip
          [(⟨Label.negative, 9 / 10⟩ : Classification)]).map
            (fun p => news_contribution p.2)).sum
          / ((["Acme shares tumble"].take 20).length : ℚ))) :=
  text_scores_spec.2.1 ["Acme shares tumble"] [⟨Label.negative, 9 / 10⟩] (by simp)

/-- C5: with all required figures present in the most recent column,
the financial score is half the solvency risk `min 100 (L/A*100)` plus
half the liquidity risk `clamp 0 100 ((1.5 - CA/CL)*100)`, with the
liabilities figure read from the first present label in preference
order; the worked example yields exactly 100; and a raised fetch, an
empty balance sheet or a missing label yields no value. -/
theorem fin_score_formula :
    (∀ rows assets liabs curr_assets curr_liabs,
        rows ≠ [] →
        rows.lookup "Total Assets" = some assets →
        liab_lookup rows = some liabs →
        rows.lookup "Current Assets" = some curr_assets →
        rows.lookup "Current Liabilities" = some curr_liabs →
        assets ≠ 0 → curr_liabs ≠ 0 →
        calculate_fin_score (.ok rows)
          = some (min 100 (liabs / assets * 100) * (1 / 2)
              + max 0 (min 100 ((3 / 2 - curr_assets / curr_liabs) * 100)) * (1 / 2)))
    ∧ (∀ rows v, rows.lookup "Total Liabilities Net Minority Interest" = some v →
        liab_lookup rows = some v)
    ∧ (∀ rows, rows.lookup "Total Liabilities Net Minority Interest" = none →
        liab_lookup rows = rows.lookup "Total Liabilities")
    ∧ calculate_fin_score (.ok fin_example_rows) = some 100
    ∧ (∀ e, calculate_fin_score (.error e) = none)
    ∧ calculate_fin_score (.ok []) = none
    ∧ (∀ rows, rows.lookup "Total Assets" = none → calculate_fin_score (.ok rows) = none) := by
  refine ⟨fun rows a l ca cl h1 h2 h3 h4 h5 h6 h7 => fin_score_eq rows a l ca cl h1 h2 h3 h4 h5 h6 h7,
    ?_, ?_, ?_, fun e => rfl, rfl, ?_⟩
  · intro rows v h
    simp [liab_lookup, liab_labels, List.find?, h]
  · intro rows h
    cases h2 : rows.lookup "Total Liabilities" <;>
      simp [liab_lookup, liab_labels, List.find?, h, h2]
  · rw [fin_score_eq fin_example_rows 100 150 50 100 (by decide) (by decide) (by decide)
      (by decide) (by decide) (by norm_num) (by norm_num)]
    norm_num [min_def, max_def]
  · intro rows h
    by_cases hne : rows = []
    · subst hne; rfl
    · simp only [calculate_fin_score, if_neg hne, h]

/-- Witness for C5: the formula conjunct instantiated at the worked
example column. -/
theorem fin_score_formula_witness :
    calculate_fin_score (.ok fin_example_rows)
      = some (min 100 ((150 : ℚ) / 100 * 100) * (1 / 2)
          + max 0 (min 100 ((3 / 2 - (50 : ℚ) / 100) * 100)) * (1 / 2)) :=
  fin_score_formula.1 fin_example_rows 100 150 50 100 (by decide) (by decide) (by decide)
    (by decide) (by decide) (by norm_num) (by norm_num)

/-- C3 counterexample: a balance sheet with negative total liabilities
produces a financial score of -25, outside [0, 100] (the solvency term
is capped above but not below). -/
theorem fin_score_negative :
    calculate_fin_score (.ok neg_liab_rows) = some (-25) ∧ ((-25 : ℚ) < 0) := by
  constructor
  · rw [fin_score_eq neg_liab_rows 100 (-50) 200 100 (by decide) (by decide) (by decide)
      (by decide) (by decide) (by norm_num) (by norm_num)]
    norm_num [min_def, max_def]
  · norm_num

lemma role_weights_nonneg : ∀ p ∈ role_weights, (0 : ℚ) ≤ p.2 := by
  decide

lemma exec_score_ok_eq (i : Info) (h : i.companyOfficers.getD [] ≠ []) :
    calculate_exec_score (.ok i)
      = min 100 (((role_weights.filter
          (fun rw => !containsSub rw.1 (officer_titles (i.companyOfficers.getD [])))).map
            Prod.snd).sum) := by
  simp only [calculate_exec_score, if_neg h]
  rw [exec_foldl_eq, zero_add]

lemma exec_score_bounds (info : Except Err Info) :
    0 ≤ calculate_exec_score info ∧ calculate_exec_score info ≤ 100 := by
  rcases info with e | i
  · norm_num [calculate_exec_score]
  · by_cases h : i.companyOfficers.getD [] = []
    · norm_num [calculate_exec_score, h]
    · rw [exec_score_ok_eq i h]
      set t := officer_titles (i.companyOfficers.getD []) with ht
      have hsub : ((role_weights.filter (fun rw => !containsSub rw.1 t)).map Prod.snd).Sublist
          (role_weights.map Prod.snd) := (List.filter_sublist _).map _
      have hnn : ∀ a ∈ role_weights.map Prod.snd, (0 : ℚ) ≤ a := by
        intro a ha
        obtain ⟨p, hp, rfl⟩ := List.mem_map.mp ha
        exact role_weights_nonneg p hp
      have hS0 : 0 ≤ ((role_weights.filter (fun rw => !containsSub rw.1 t)).map Prod.snd).sum :=
        List.sum_nonneg (fun a ha => hnn a (hsub.subset ha))
      exact ⟨le_min (by norm_num) hS0, min_le_left _ _⟩

lemma fin_score_le (bs : Except Err (List (String × ℚ))) (v : ℚ)
    (hv : calculate_fin_score bs = some v) : v ≤ 100 := by
  rcases bs with e | rows
  · exact absurd hv (by simp [calculate_fin_score])
  · simp only [calculate_fin_score] at hv
    split at hv
    · simp at hv
    · split at hv
      · split at hv
        · simp at hv
        · split at hv
          · split at hv
            · simp at hv
            · rw [Option.some.injEq] at hv
              subst hv
              apply le_trans (add_le_add
                (mul_le_mul_of_nonneg_right (min_le_left _ _) (by norm_num))
                (mul_le_mul_of_nonneg_right
                  (max_le (by norm_num) (min_le_left _ _)) (by norm_num)))
              norm_num
          · simp at hv
      · simp at hv

lemma text_scores_bounds (headlines : List String) (results : List Classification)
    (hconf : ∀ r ∈ results, 0 ≤ r.score) :
    (0 ≤ (calculate_text_scores headlines results).1
      ∧ (calculate_text_scores headlines results).1 ≤ 100)
    ∧ (0 ≤ (calculate_text_scores headlines results).2
      ∧ (calculate_text_scores headlines results).2 ≤ 100) := by
  by_cases h : headlines = []
  · subst h
    norm_num [calculate_text_scores]
  · rw [text_scores_nonempty headlines results h]
    refine ⟨⟨le_max_left _ _, max_le (by norm_num) (min_le_left _ _)⟩, ?_, min_le_left _ _⟩
    refine le_min (by norm_num) (List.sum_nonneg ?_)
    intro x hx
    obtain ⟨p, hp, rfl⟩ := List.mem_map.mp hx
    exact legal_contribution_nonneg p.1 p.2 (hconf p.2 (List.of_mem_zip hp).2)

/-- C3 (amended): the news and legal scores (for classifier confidences
at least 0) and the executive score always lie in [0, 100], and the
financial score and the aggregator's final result are capped above at
100; but the financial score has no lower bound (see the negative
liabilities counterexample), so not every produced score lies in
[0, 100]. -/
theorem signal_score_bounds (headlines : List String) (results : List Classification)
    (hconf : ∀ r ∈ results, 0 ≤ r.score) :
    (0 ≤ (calculate_text_scores headlines results).1
      ∧ (calculate_text_scores headlines results).1 ≤ 100)
    ∧ (0 ≤ (calculate_text_scores headlines results).2
      ∧ (calculate_text_scores headlines results).2 ≤ 100)
    ∧ (∀ info, 0 ≤ calculate_exec_score info ∧ calculate_exec_score info ≤ 100)
    ∧ (∀ bs v, calculate_fin_score bs = some v → v ≤ 100)
    ∧ (∀ active m, final_score active m ≤ 100) := by
  obtain ⟨hn, hl⟩ := text_scores_bounds headlines results hconf
  exact ⟨hn, hl, exec_score_bounds, fin_score_le, fun active m => min_le_left _ _⟩

/-- Witness for C3's amended bounds at the empty text input. -/
theorem signal_score_bounds_witness :
    (0 ≤ (calculate_text_scores [] []).1 ∧ (calculate_text_scores [] []).1 ≤ 100)
    ∧ (0 ≤ (calculate_text_scores [] []).2 ∧ (calculate_text_scores [] []).2 ≤ 100)
    ∧ (∀ info, 0 ≤ calculate_exec_score info ∧ calculate_exec_score info ≤ 100)
    ∧ (∀ bs v, calculate_fin_score bs = some v → v ≤ 100)
    ∧ (∀ active m, final_score active m ≤ 100) :=
  signal_score_bounds [] [] (by simp)

/-- C8: the executive calculator returns exactly 85 for an empty or
absent officer list, exactly 50 when the info fetch raised, and
otherwise `min 100` of the summed weights of the roles whose names do
not occur in the lower-cased concatenation of officer titles. -/
theorem exec_score_spec :
    (∀ i : Info, i.companyOfficers.getD [] = [] → calculate_exec_score (.ok i) = 85)
    ∧ (∀ e, calculate_exec_score (.error e) = 50)
    ∧ (∀ i : Info, i.companyOfficers.getD [] ≠ [] →
        calculate_exec_score (.ok i)
          = min 100 (((role_weights.filter
              (fun rw => !containsSub rw.1 (officer_titles (i.companyOfficers.getD [])))).map
                Prod.snd).sum)) := by
  refine ⟨?_, fun e => rfl, fun i h => exec_score_ok_eq i h⟩
  intro i h
  simp [calculate_exec_score, h]

/-- Witness for C8 at a single officer titled "CEO and President". -/
theorem exec_score_spec_witness :
    calculate_exec_score (.ok exec_example_info)
      = min 100 (((role_weights.filter
          (fun rw => !containsSub rw.1
            (officer_titles (exec_example_info.companyOfficers.getD [])))).map
              Prod.snd).sum) :=
  exec_score_spec.2.2 exec_example_info (by decide)

lemma set_add_nodup (s : List String) (x : String) (h : s.Nodup) : (set_add s x).Nodup := by
  unfold set_add
  split
  · exact h
  · next hx => simp [List.nodup_append, h, hx]

lemma set_add_mem (s : List String) (x y : String) :
    y ∈ set_add s x ↔ y ∈ s ∨ y = x := by
  unfold set_add
  split
  · next hx => exact ⟨Or.inl, fun hy => hy.elim id (fun e => e ▸ hx)⟩
  · simp

lemma add_relevant_nodup (name : String) :
    ∀ (titles s : List String), s.Nodup → (add_relevant name s titles).Nodup := by
  intro titles
  induction titles with
  | nil => intro s h; exact h
  | cons t ts ih =>
    intro s h
    show (add_relevant name
      (if containsSub (strLower name) (strLower t) then set_add s t else s) ts).Nodup
    by_cases hc : containsSub (strLower name) (strLower t) = true
    · rw [if_pos hc]
      exact ih _ (set_add_nodup s t h)
    · rw [if_neg hc]
      exact ih s h

lemma add_relevant_mem (name : String) :
    ∀ (titles s : List String) (y : String), y ∈ add_relevant name s titles →
      y ∈ s ∨ containsSub (strLower name) (strLower y) = true := by
  intro titles
  induction titles with
  | nil => intro s y hy; exact Or.inl hy
  | cons t ts ih =>
    intro s y hy
    have hy2 : y ∈ add_relevant name
        (if containsSub (strLower name) (strLower t) then set_add s t else s) ts := hy
    rcases ih _ y hy2 with h1 | h2
    · by_cases hc : containsSub (strLower name) (strLower t) = true
      · rw [if_pos hc] at h1
        rcases (set_add_mem s t y).mp h1 with hs | rfl
        · exact Or.inl hs
        · exact Or.inr hc
      · rw [if_neg hc] at h1
        exact Or.inl h1
    · exact Or.inr h2

/-- C9: the headline collector's output has no duplicate strings (two
sources with an identical title yield one entry) and every returned
headline contains the company name as a case-insensitive substring. -/
theorem headline_collector_spec :
    (∀ name feed sn, (get_headlines name feed sn).Nodup)
    ∧ (∀ name feed sn h, h ∈ get_headlines name feed sn →
        containsSub (strLower name) (strLower h) = true)
    ∧ get_headlines "Acme" (.ok ["Acme probe widens"])
        (some (.ok ["Acme probe widens", "Other story"])) = ["Acme probe widens"] := by
  refine ⟨?_, ?_, by decide⟩
  · intro name feed sn
    have hs1 : ∀ fd : Except Err (List String),
        (match fd with
          | Except.error _ => ([] : List String)
          | Except.ok items => add_relevant name [] (items.take 30)).Nodup := by
      intro fd
      rcases fd with e | items
      · exact List.nodup_nil
      · exact add_relevant_nodup name _ _ List.nodup_nil
    rcases sn with _ | ⟨e2 | items2⟩
    · exact hs1 feed
    · exact hs1 feed
    · exact add_relevant_nodup name items2 _ (hs1 feed)
  · intro name feed sn h hmem
    have hs1 : ∀ fd : Except Err (List String),
        h ∈ (match fd with
          | Except.error _ => ([] : List String)
          | Except.ok items => add_relevant name [] (items.take 30)) →
        containsSub (strLower name) (strLower h) = true := by
      intro fd hm
      rcases fd with e | items
      · simp at hm
      · rcases add_relevant_mem name _ _ _ hm with h1 | h2
        · simp at h1
        · exact h2
    rcases sn with _ | ⟨e2 | items2⟩
    · exact hs1 feed hmem
    · exact hs1 feed hmem
    · rcases add_relevant_mem name items2 _ h hmem with h1 | h2
      · exact hs1 feed h1
      · exact h2

/-- Witness for C9's relevance property at a concrete collected
headline. -/
theorem headline_collector_spec_witness :
    containsSub (strLower "Acme") (strLower "Acme probe widens") = true :=
  headline_collector_spec.2.1 "Acme" (.ok ["Acme probe widens"]) none
    "Acme probe widens" (by decide)

end DarkRiskRadar
